import Mathlib

/-!
Verification of the `voice` peer-to-peer note-sync core against its
natural-language specification.

The development shallowly embeds the Rust code of
`src/rust/voice-core/src` into Lean:

* `sync_server.rs` — the reconciler (`apply_note_change`,
  `apply_tag_change`, `apply_note_tag_change`), the changes feed
  (`get_changes_since`) and the `/sync/changes` handler (`get_changes`);
* `validation.rs` — `validate_tag_name`, `validate_uuid_hex`,
  `uuid_to_hex`;
* `config.rs` — `Config::add_peer`, `Config::get_peer`;
* `tls.rs` — `TOFUVerifier::verify_peer`.

Database rows are modelled as Lean structures and the store as lists of
rows.  The store primitives `get_note_raw` / `get_tag_raw` /
`get_note_tag_raw` and `apply_sync_note` / `apply_sync_tag` /
`apply_sync_note_tag` live in `database.rs`, which is not part of the
sources; they are modelled from the spec ("Raw accessors ... return the
full row"; "Apply-sync primitives ... upsert, overwriting the local row
unconditionally"): the raw accessor becomes the `existing : Option row`
argument of each apply function, and the apply-sync primitive becomes
the returned `Option row` (the row after the call).  RFC 3339 timestamps
are strings compared lexicographically, exactly as the Rust code
compares `&str` / `Option<&str>` values.
-/

/-- Outcome type `ApplyResult` from `sync_server.rs`: outcome of applying one incoming
`SyncChange`. -/
inductive ApplyResult where
  | Applied
  | Conflict
  | Skipped
deriving DecidableEq, Repr

/-- A row of the `notes` table (columns used by the reconciler;
`id` is the lookup key and is factored out of the model). -/
structure NoteRow where
  created_at : String
  content : String
  modified_at : Option String
  deleted_at : Option String
deriving DecidableEq, Repr

/-- The JSON `data` payload of a note `SyncChange`.  Every field is
optional because the Rust code reads each one with `as_str()`, which
yields `None` for absent or non-string values. -/
structure NoteChangeData where
  created_at : Option String
  content : Option String
  modified_at : Option String
  deleted_at : Option String
deriving DecidableEq, Repr

/-- A row of the `tags` table. -/
structure TagRow where
  name : String
  parent_id : Option String
  created_at : String
  modified_at : Option String
deriving DecidableEq, Repr

/-- The JSON `data` payload of a tag `SyncChange`. -/
structure TagChangeData where
  name : Option String
  parent_id : Option String
  created_at : Option String
  modified_at : Option String
deriving DecidableEq, Repr

/-- A row of the `note_tags` table (the `(note_id, tag_id)` key is the
lookup key and is factored out of the model). -/
structure NoteTagRow where
  created_at : String
  modified_at : Option String
  deleted_at : Option String
deriving DecidableEq, Repr

/-- The JSON `data` payload of a note-tag `SyncChange`. -/
structure NoteTagChangeData where
  created_at : Option String
  modified_at : Option String
  deleted_at : Option String
deriving DecidableEq, Repr

/-- Strict lexicographic order on strings, via their character lists.
Rust compares `&str` byte-wise; on the ASCII timestamps and hex ids the
code compares, that coincides with this character-wise order. -/
def strLt (a b : String) : Prop := a.data < b.data

instance (a b : String) : Decidable (strLt a b) :=
  inferInstanceAs (Decidable (a.data < b.data))

/-- Lexicographic order on strings, via their character lists. -/
def strLe (a b : String) : Prop := a.data ≤ b.data

instance (a b : String) : Decidable (strLe a b) :=
  inferInstanceAs (Decidable (a.data ≤ b.data))

/-- The replay gate shared by the three apply functions: Rust's
`if let (Some(last), Some(incoming)) = (last_sync_at, incoming_time)
{ if incoming <= last { return Skipped } }`. -/
def skipGate (last_sync_at incoming_time : Option String) : Bool :=
  match last_sync_at, incoming_time with
  | some last, some incoming => decide (strLe incoming last)
  | _, _ => false

/-- Embedding of `apply_note_change` from `sync_server.rs` (lines 532-596).  The
`existing` argument stands for `db.get_note_raw(note_id)`; the returned
`Option NoteRow` is the row after the call (`db.apply_sync_note`
overwrites it unconditionally).  Note that in the source the branch
where both sides changed carries the comment
"Both sides changed - for now, remote wins (could create conflict)"
and "TODO: Implement proper conflict detection": `local_changed` is
computed but never consulted, and the function never returns
`Conflict`. -/
def apply_note_change (op : String) (data : NoteChangeData)
    (existing : Option NoteRow) (last_sync_at : Option String) :
    ApplyResult × Option NoteRow :=
  if op = "create" then
    match existing with
    | some _ => (.Skipped, existing)
    | none =>
      (.Applied, some { created_at := data.created_at.getD ""
                        content := data.content.getD ""
                        modified_at := data.modified_at
                        deleted_at := data.deleted_at })
  else if op = "update" ∨ op = "delete" then
    let created_at := data.created_at.getD ""
    let content := data.content.getD ""
    let modified_at := data.modified_at
    let deleted_at := data.deleted_at
    match existing with
    | none => (.Applied, some { created_at, content, modified_at, deleted_at })
    | some ex =>
      let local_time := ex.modified_at.or ex.deleted_at
      let local_changed : Bool :=
        last_sync_at.isNone ||
          (match local_time with
           | some lt => decide (strLt (last_sync_at.getD "") lt)
           | none => false)
      let incoming_time := modified_at.or deleted_at
      if skipGate last_sync_at incoming_time then (.Skipped, some ex)
      else
        let _ := local_changed
        (.Applied, some { created_at, content, modified_at, deleted_at })
  else (.Skipped, existing)

/-- Embedding of `apply_tag_change` from `sync_server.rs` (lines 598-646).  The
`existing` argument stands for `db.get_tag_raw(tag_id)`; the returned
`Option TagRow` is the row after the call.  The function consults no
other tag rows: it receives no tag tree, so it can detect neither
renames, nor parent moves, nor parent cycles; every non-skipped update
overwrites the local row. -/
def apply_tag_change (op : String) (data : TagChangeData)
    (existing : Option TagRow) (last_sync_at : Option String) :
    ApplyResult × Option TagRow :=
  if op = "create" then
    match existing with
    | some _ => (.Skipped, existing)
    | none =>
      (.Applied, some { name := data.name.getD ""
                        parent_id := data.parent_id
                        created_at := data.created_at.getD ""
                        modified_at := data.modified_at })
  else if op = "update" then
    let name := data.name.getD ""
    let parent_id := data.parent_id
    let created_at := data.created_at.getD ""
    let modified_at := data.modified_at
    match existing with
    | none => (.Applied, some { name, parent_id, created_at, modified_at })
    | some _ =>
      if skipGate last_sync_at modified_at then (.Skipped, existing)
      else (.Applied, some { name, parent_id, created_at, modified_at })
  else (.Skipped, existing)

/-- The incoming-change timestamp of a note-tag change
(`sync_server.rs` lines 663-668): `deleted_at` falling back to
`modified_at` for deletes, `modified_at` falling back to `created_at`
otherwise. -/
def noteTagIncomingTime (op : String) (data : NoteTagChangeData) : Option String :=
  if op = "delete" then data.deleted_at.or data.modified_at
  else data.modified_at.or data.created_at

/-- Flag `local_changed` for a note-tag row (`sync_server.rs` lines 679-688):
true when the peer watermark is absent, or the row's latest effective
timestamp (`modified_at`, else `deleted_at`, else `created_at`) is
strictly after the watermark.  A missing row is never locally
changed. -/
def noteTagLocalChanged (existing : Option NoteTagRow) (last_sync_at : Option String) : Bool :=
  match existing with
  | some ex =>
    let local_time := ex.modified_at.or (ex.deleted_at.or (some ex.created_at))
    last_sync_at.isNone ||
      (match local_time with
       | some lt => decide (strLt (last_sync_at.getD "") lt)
       | none => false)
  | none => false

/-- Embedding of `apply_note_tag_change` from `sync_server.rs` (lines 648-763).  The
`existing` argument stands for `db.get_note_tag_raw(note_id, tag_id)`;
the returned `Option NoteTagRow` is the row after the call.  The
source first splits the `"note_id:tag_id"` entity id and returns
`Skipped` on a malformed id; the model starts after that parse, since
the ids only key the row lookup that `existing` already embodies. -/
def apply_note_tag_change (op : String) (data : NoteTagChangeData)
    (existing : Option NoteTagRow) (last_sync_at : Option String) :
    ApplyResult × Option NoteTagRow :=
  let incoming_time := noteTagIncomingTime op data
  if skipGate last_sync_at incoming_time then (.Skipped, existing)
  else
    let local_changed := noteTagLocalChanged existing last_sync_at
    let created_at := data.created_at.getD ""
    let modified_at := data.modified_at
    let deleted_at := data.deleted_at
    if op = "create" then
      match existing with
      | some ex =>
        if ex.deleted_at = none then (.Skipped, some ex)
        else ((if local_changed then .Conflict else .Applied),
              some { created_at := ex.created_at, modified_at, deleted_at := none })
      | none => (.Applied, some { created_at, modified_at, deleted_at := none })
    else if op = "delete" then
      match existing with
      | none => (.Applied, some { created_at, modified_at, deleted_at })
      | some ex =>
        if ex.deleted_at.isSome then (.Skipped, some ex)
        else if local_changed then (.Conflict, some ex)
        else (.Applied, some { created_at := ex.created_at, modified_at, deleted_at })
    else if op = "update" then
      match existing with
      | none => (.Applied, some { created_at, modified_at, deleted_at })
      | some ex =>
        let remote_deleted := deleted_at.isSome
        let local_deleted := ex.deleted_at.isSome
        if !remote_deleted && local_deleted then
          ((if local_changed then .Conflict else .Applied),
           some { created_at := ex.created_at, modified_at, deleted_at := none })
        else if remote_deleted && !local_deleted then
          if local_changed then (.Conflict, some ex)
          else (.Applied, some { created_at := ex.created_at, modified_at, deleted_at })
        else (.Applied, some { created_at := ex.created_at, modified_at, deleted_at })
    else (.Skipped, existing)

/-- A row of the `notes` table as read by the changes feed
(`get_changes_since` emits the id, so the feed model keeps it). -/
structure DbNoteRow where
  id : String
  created_at : String
  content : String
  modified_at : Option String
  deleted_at : Option String
deriving DecidableEq, Repr

/-- A row of the `tags` table as read by the changes feed. -/
structure DbTagRow where
  id : String
  name : String
  parent_id : Option String
  created_at : String
  modified_at : Option String
deriving DecidableEq, Repr

/-- A row of the `note_tags` table as read by the changes feed. -/
structure DbNoteTagRow where
  note_id : String
  tag_id : String
  created_at : String
  modified_at : Option String
  deleted_at : Option String
deriving DecidableEq, Repr

/-- The store, modelled as the three entity tables. -/
structure Db where
  notes : List DbNoteRow
  tags : List DbTagRow
  note_tags : List DbNoteTagRow
deriving DecidableEq, Repr

/-- Modelled from the spec: the wire `SyncChange` record
(`{entity_type, entity_id, operation, timestamp, device_id,
device_name?, data}`).  The struct itself is declared in
`sync_client.rs`, which is not among the sources.  The JSON `data`
payload is omitted here: no claim inspects it, and the apply functions
take it as a separate typed argument. -/
structure SyncChange where
  entity_type : String
  entity_id : String
  operation : String
  timestamp : String
  device_id : String
  device_name : Option String
deriving DecidableEq, Repr

/-- The `ORDER BY COALESCE(modified_at, created_at)` sort key of the
notes query. -/
def noteSortKey (r : DbNoteRow) : String := r.modified_at.getD r.created_at

/-- The `ORDER BY COALESCE(modified_at, created_at)` sort key of the
tags query. -/
def tagSortKey (r : DbTagRow) : String := r.modified_at.getD r.created_at

/-- The `ORDER BY COALESCE(modified_at, deleted_at, created_at)` sort
key of the note-tags query. -/
def noteTagSortKey (r : DbNoteTagRow) : String :=
  (r.modified_at.or r.deleted_at).getD r.created_at

/-- Order on note rows induced by `noteSortKey`. -/
def noteLe (a b : DbNoteRow) : Prop := strLe (noteSortKey a) (noteSortKey b)

instance : DecidableRel noteLe :=
  fun a b => inferInstanceAs (Decidable (strLe (noteSortKey a) (noteSortKey b)))

instance : IsTotal DbNoteRow noteLe := ⟨fun a b => le_total (noteSortKey a).data (noteSortKey b).data⟩

instance : IsTrans DbNoteRow noteLe := ⟨fun _ _ _ h1 h2 => le_trans h1 h2⟩

/-- Order on tag rows induced by `tagSortKey`. -/
def tagLe (a b : DbTagRow) : Prop := strLe (tagSortKey a) (tagSortKey b)

instance : DecidableRel tagLe :=
  fun a b => inferInstanceAs (Decidable (strLe (tagSortKey a) (tagSortKey b)))

instance : IsTotal DbTagRow tagLe := ⟨fun a b => le_total (tagSortKey a).data (tagSortKey b).data⟩

instance : IsTrans DbTagRow tagLe := ⟨fun _ _ _ h1 h2 => le_trans h1 h2⟩

/-- Order on note-tag rows induced by `noteTagSortKey`. -/
def noteTagLe (a b : DbNoteTagRow) : Prop := strLe (noteTagSortKey a) (noteTagSortKey b)

instance : DecidableRel noteTagLe :=
  fun a b => inferInstanceAs (Decidable (strLe (noteTagSortKey a) (noteTagSortKey b)))

instance : IsTotal DbNoteTagRow noteTagLe :=
  ⟨fun a b => le_total (noteTagSortKey a).data (noteTagSortKey b).data⟩

instance : IsTrans DbNoteTagRow noteTagLe := ⟨fun _ _ _ h1 h2 => le_trans h1 h2⟩

/-- The `WHERE modified_at > ? OR (modified_at IS NULL AND
created_at > ?)` clause of the notes query; SQL comparisons against
NULL are false. -/
def noteSinceFilter (since : Option String) (r : DbNoteRow) : Bool :=
  match since with
  | none => true
  | some ts =>
    match r.modified_at with
    | some m => decide (strLt ts m)
    | none => decide (strLt ts r.created_at)

/-- The `WHERE modified_at > ? OR (modified_at IS NULL AND
created_at > ?)` clause of the tags query. -/
def tagSinceFilter (since : Option String) (r : DbTagRow) : Bool :=
  match since with
  | none => true
  | some ts =>
    match r.modified_at with
    | some m => decide (strLt ts m)
    | none => decide (strLt ts r.created_at)

/-- The `WHERE created_at > ? OR deleted_at > ? OR modified_at > ?`
clause of the note-tags query. -/
def noteTagSinceFilter (since : Option String) (r : DbNoteTagRow) : Bool :=
  match since with
  | none => true
  | some ts =>
    decide (strLt ts r.created_at) ||
      (match r.deleted_at with | some d => decide (strLt ts d) | none => false) ||
      (match r.modified_at with | some m => decide (strLt ts m) | none => false)

/-- SQL `LIMIT n` on an ordered result set.  SQLite treats a negative
limit as "no limit"; the server-side `min` can produce a negative
value when the client sends one. -/
def sqlLimit (n : Int) (l : List α) : List α := if n < 0 then l else l.take n.toNat

/-- The note change record built by `get_changes_since`
(`sync_server.rs` lines 300-336): operation derived from which
timestamps are non-null, timestamp `modified_at` / `deleted_at` /
`created_at` in that order of preference. -/
def noteToChange (r : DbNoteRow) : SyncChange :=
  { entity_type := "note"
    entity_id := r.id
    operation :=
      if r.deleted_at.isSome then "delete"
      else if r.modified_at.isSome then "update"
      else "create"
    timestamp := (r.modified_at.or r.deleted_at).getD r.created_at
    device_id := ""
    device_name := none }

/-- The tag change record built by `get_changes_since`
(`sync_server.rs` lines 373-402). -/
def tagToChange (r : DbTagRow) : SyncChange :=
  { entity_type := "tag"
    entity_id := r.id
    operation := if r.modified_at.isSome then "update" else "create"
    timestamp := r.modified_at.getD r.created_at
    device_id := ""
    device_name := none }

/-- The note-tag change record built by `get_changes_since`
(`sync_server.rs` lines 440-478). -/
def noteTagToChange (r : DbNoteTagRow) : SyncChange :=
  { entity_type := "note_tag"
    entity_id := r.note_id ++ ":" ++ r.tag_id
    operation :=
      if r.deleted_at.isSome then "delete"
      else if r.modified_at.isSome then "update"
      else "create"
    timestamp := (r.modified_at.or r.deleted_at).getD r.created_at
    device_id := ""
    device_name := none }

/-- One step of the running `latest_timestamp` computation:
`if latest_timestamp.is_none() || latest_timestamp.as_ref() <
Some(&timestamp) { latest_timestamp = Some(timestamp) }`. -/
def updLatest (latest : Option String) (t : String) : Option String :=
  match latest with
  | none => some t
  | some s => if strLt s t then some t else some s

/-- The `latest_timestamp` accumulated over the emitted changes, in
emission order. -/
def latestOf (ts : List String) : Option String := ts.foldl updLatest none

/-- The notes section of `get_changes_since`: filter by `since`, order
by `noteSortKey`, cut at `limit`. -/
def notesPart (db : Db) (since : Option String) (limit : Int) : List DbNoteRow :=
  sqlLimit limit (List.insertionSort noteLe (db.notes.filter (noteSinceFilter since)))

/-- The tags section of `get_changes_since`: run only when
`remaining = limit - changes.len() > 0` after the notes section. -/
def tagsPart (db : Db) (since : Option String) (limit : Int) : List DbTagRow :=
  if limit - (notesPart db since limit).length > 0 then
    sqlLimit (limit - (notesPart db since limit).length)
      (List.insertionSort tagLe (db.tags.filter (tagSinceFilter since)))
  else []

/-- The note-tags section of `get_changes_since`: run only when
`remaining > 0` after the notes and tags sections. -/
def noteTagsPart (db : Db) (since : Option String) (limit : Int) : List DbNoteTagRow :=
  if limit - ((notesPart db since limit).length + (tagsPart db since limit).length) > 0 then
    sqlLimit (limit - ((notesPart db since limit).length + (tagsPart db since limit).length))
      (List.insertionSort noteTagLe (db.note_tags.filter (noteTagSinceFilter since)))
  else []

/-- Embedding of `get_changes_since` from `sync_server.rs` (lines 254-482): notes,
then tags, then note-tags, each filtered by `since`, ordered by its
COALESCE sort key and capped by the remaining limit, together with the
maximum emitted timestamp. -/
def get_changes_since (db : Db) (since : Option String) (limit : Int) :
    List SyncChange × Option String :=
  let changes :=
    (notesPart db since limit).map noteToChange ++
      (tagsPart db since limit).map tagToChange ++
      (noteTagsPart db since limit).map noteTagToChange
  (changes, latestOf (changes.map SyncChange.timestamp))

/-- The effective limit of the `/sync/changes` handler:
`query.limit.unwrap_or(1000).min(10000)`. -/
def effectiveLimit (client_limit : Option Int) : Int :=
  min (client_limit.getD 1000) 10000

/-- The `/sync/changes` handler `get_changes` from `sync_server.rs`
(lines 135-165), reduced to the response fields the claims concern:
the changes list and `is_complete = (changes.len() as i64) < limit`. -/
def get_changes (db : Db) (since : Option String) (client_limit : Option Int) :
    List SyncChange × Bool :=
  let limit := effectiveLimit client_limit
  let res := get_changes_since db since limit
  (res.1, decide ((res.1.length : Int) < limit))

/-- Embedding of `VoiceError::Validation { field, message }` from `error.rs`, the
error kind every validator produces. -/
structure ValidationError where
  field : String
  message : String
deriving DecidableEq, Repr

/-- Equality of validator results is decidable (needed to evaluate the
embedded validators on concrete inputs). -/
instance {ε α : Type} [DecidableEq ε] [DecidableEq α] : DecidableEq (Except ε α)
  | .ok x, .ok y =>
    if h : x = y then .isTrue (h ▸ rfl) else .isFalse (fun hc => h (Except.ok.inj hc))
  | .error x, .error y =>
    if h : x = y then .isTrue (h ▸ rfl) else .isFalse (fun hc => h (Except.error.inj hc))
  | .ok _, .error _ => .isFalse (fun hc => Except.noConfusion hc)
  | .error _, .ok _ => .isFalse (fun hc => Except.noConfusion hc)

/-- Constant `MAX_TAG_NAME_LENGTH` from `validation.rs`. -/
def MAX_TAG_NAME_LENGTH : Nat := 100

/-- The Unicode White_Space code points, as matched by Rust
`char::is_whitespace`. -/
def rustIsWhitespace (c : Char) : Bool :=
  (0x09 ≤ c.toNat && c.toNat ≤ 0x0D) || c == ' ' ||
    c.toNat == 0x85 || c.toNat == 0xA0 || c.toNat == 0x1680 ||
    (0x2000 ≤ c.toNat && c.toNat ≤ 0x200A) ||
    c.toNat == 0x2028 || c.toNat == 0x2029 || c.toNat == 0x202F ||
    c.toNat == 0x205F || c.toNat == 0x3000

/-- Rust `str::trim`: strip leading and trailing whitespace.  Strings
are modelled as `List Char` so that character counts and UTF-8 byte
counts can be told apart. -/
def rustTrim (s : List Char) : List Char :=
  ((s.dropWhile rustIsWhitespace).reverse.dropWhile rustIsWhitespace).reverse

/-- Rust `str::len`: the length in UTF-8 bytes, not in characters. -/
def utf8Len (s : List Char) : Nat := (s.map Char.utf8Size).sum

/-- Embedding of `validate_tag_name` from `validation.rs` (lines 102-131): trim,
then reject empty, over-long (`stripped.len()`, a byte count) and
slash-containing names. -/
def validate_tag_name (name : List Char) : Except ValidationError Unit :=
  let stripped := rustTrim name
  if stripped.isEmpty then
    .error ⟨"tag_name", "cannot be empty or whitespace only"⟩
  else if utf8Len stripped > MAX_TAG_NAME_LENGTH then
    let n := utf8Len stripped
    .error ⟨"tag_name", s!"cannot exceed {MAX_TAG_NAME_LENGTH} characters (got {n})"⟩
  else if stripped.contains '/' then
    .error ⟨"tag_name", "cannot contain / character (reserved for paths)"⟩
  else .ok ()

/-- Embedding of `uuid_to_hex` from `validation.rs` (lines 44-46):
`uuid.simple().to_string()`, the 32 lowercase hex characters of the 16
bytes, no hyphens.  A UUID is modelled as its 16 bytes; `Nat.digitChar`
produces exactly the lowercase digits the uuid crate emits. -/
def uuid_to_hex (bytes : List Nat) : List Char :=
  bytes.flatMap (fun b => [Nat.digitChar (b / 16), Nat.digitChar (b % 16)])

/-- The numeric value of one hex character, case-insensitive. -/
def hexVal (c : Char) : Option Nat :=
  if '0' ≤ c ∧ c ≤ '9' then some (c.toNat - '0'.toNat)
  else if 'a' ≤ c ∧ c ≤ 'f' then some (c.toNat - 'a'.toNat + 10)
  else if 'A' ≤ c ∧ c ≤ 'F' then some (c.toNat - 'A'.toNat + 10)
  else none

/-- Parse an even run of hex characters into bytes. -/
def parseHexBytes : List Char → Option (List Nat)
  | [] => some []
  | [_] => none
  | c1 :: c2 :: rest =>
    match hexVal c1, hexVal c2, parseHexBytes rest with
    | some hi, some lo, some bs => some ((16 * hi + lo) :: bs)
    | _, _, _ => none

/-- Modelled from the uuid crate (an external dependency):
`Uuid::parse_str` applied to a 32-character string parses the simple
(hyphen-free) hex format; shorter or longer hyphen-free inputs that are
neither the urn nor the braced form are rejected.  After
`validate_uuid_hex` strips every hyphen, the simple form is the only
format a well-formed input can take, so the model covers exactly it. -/
def uuidParse (s : List Char) : Option (List Nat) :=
  if s.length = 32 then parseHexBytes s else none

/-- Hyphen stripping `value.replace('-', "")` from `validate_uuid_hex`. -/
def removeHyphens (s : List Char) : List Char := s.filter (fun c => c ≠ '-')

/-- Embedding of `validate_uuid_hex` from `validation.rs` (lines 35-41): strip all
hyphens, then `Uuid::parse_str`. -/
def validate_uuid_hex (value : List Char) (field_name : String) :
    Except ValidationError (List Nat) :=
  match uuidParse (removeHyphens value) with
  | some u => .ok u
  | none => .error ⟨field_name, "invalid UUID format"⟩

/-- The hyphenated 8-4-4-4-12 rendering of a UUID. -/
def uuidHyphenated (bytes : List Nat) : List Char :=
  let h := uuid_to_hex bytes
  h.take 8 ++ ['-'] ++ (h.drop 8).take 4 ++ ['-'] ++ (h.drop 12).take 4 ++
    ['-'] ++ (h.drop 16).take 4 ++ ['-'] ++ h.drop 20

/-- Embedding of `PeerConfig` from `config.rs`. -/
structure PeerConfig where
  peer_id : String
  peer_name : String
  peer_url : String
  certificate_fingerprint : Option String
deriving DecidableEq, Repr

/-- Rust `char::is_ascii_hexdigit`. -/
def isAsciiHexDigit (c : Char) : Bool :=
  ('0' ≤ c && c ≤ '9') || ('a' ≤ c && c ≤ 'f') || ('A' ≤ c && c ≤ 'F')

/-- The peer-id format check of `Config::add_peer`:
`peer_id.len() != 32 || !peer_id.chars().all(|c| c.is_ascii_hexdigit())`
(`len()` counts bytes; on the accepted all-ASCII strings bytes and
characters agree). -/
def validPeerId (peer_id : String) : Bool :=
  utf8Len peer_id.data == 32 && peer_id.data.all isAsciiHexDigit

/-- The `iter_mut().find(...)` update step of `Config::add_peer`: the
first peer with the given id gets the new name and url, and a new
fingerprint only when one was supplied. -/
def updateFirstPeer (peers : List PeerConfig) (peer_id peer_name peer_url : String)
    (certificate_fingerprint : Option String) : List PeerConfig :=
  match peers with
  | [] => []
  | p :: rest =>
    if p.peer_id = peer_id then
      { p with
        peer_name := peer_name
        peer_url := peer_url
        certificate_fingerprint :=
          match certificate_fingerprint with
          | some fp => some fp
          | none => p.certificate_fingerprint } :: rest
    else p :: updateFirstPeer rest peer_id peer_name peer_url certificate_fingerprint

/-- Embedding of `Config::add_peer` from `config.rs` (lines 287-320), modelled on the
peer list (the config's only state it reads or writes; `save()` is file
I/O and out of scope). -/
def add_peer (peers : List PeerConfig) (peer_id peer_name peer_url : String)
    (certificate_fingerprint : Option String) (allow_update : Bool) :
    Except ValidationError (List PeerConfig) :=
  if !validPeerId peer_id then
    .error ⟨"peer_id", "must be 32 hex characters"⟩
  else if (peers.find? (fun p => p.peer_id == peer_id)).isSome then
    if !allow_update then .error ⟨"peer_id", "peer already exists"⟩
    else .ok (updateFirstPeer peers peer_id peer_name peer_url certificate_fingerprint)
  else
    .ok (peers ++ [{ peer_id := peer_id, peer_name := peer_name, peer_url := peer_url,
                     certificate_fingerprint := certificate_fingerprint }])

/-- Embedding of `Config::get_peer` from `config.rs` (lines 334-336). -/
def get_peer (peers : List PeerConfig) (peer_id : String) : Option PeerConfig :=
  peers.find? (fun p => p.peer_id == peer_id)

/-- Embedding of `TOFUVerifier::verify_peer` from `tls.rs` (lines 86-124).  The
`computed` argument stands for the result of
`compute_fingerprint_from_pem(peer_cert_pem)` (PEM parsing plus SHA-256
over the DER bytes, performed by external crates and abstracted here).
The verifier holds `&Config` (a shared, immutable borrow); the model
threads the peer list through and returns it so the theorems can state
that verification never rewrites the stored pin. -/
def verify_peer (peers : List PeerConfig) (peer_id : String)
    (computed : Except String String) :
    (Bool × String × Option String) × List PeerConfig :=
  match computed with
  | .error e => ((false, "", some ("Failed to compute fingerprint: " ++ e)), peers)
  | .ok actual_fingerprint =>
    match get_peer peers peer_id with
    | none => ((false, actual_fingerprint, some "Unknown peer"), peers)
    | some peer =>
      match peer.certificate_fingerprint with
      | none => ((true, actual_fingerprint, none), peers)
      | some stored =>
        if actual_fingerprint.data.map Char.toLower = stored.data.map Char.toLower then
          ((true, actual_fingerprint, none), peers)
        else
          ((false, actual_fingerprint,
            some ("Certificate fingerprint mismatch! Expected: " ++ stored ++
              ", Got: " ++ actual_fingerprint ++
              ". This could indicate a man-in-the-middle attack or the peer regenerated their certificate.")),
           peers)

/-- The guarantees the changes feed actually provides: at most `limit`
records; the list is the notes, then tags, then note-tags sections;
each section is sorted by its own COALESCE key and every row in it
passed its own `since` filter; and the reported latest timestamp is the
maximum timestamp among the returned records (absent exactly when the
list is empty). -/
def changesFeedSpec (db : Db) (since : Option String) (limit : Int) : Prop :=
  ((get_changes_since db since limit).1.length : Int) ≤ limit ∧
  (get_changes_since db since limit).1 =
    (notesPart db since limit).map noteToChange ++
      (tagsPart db since limit).map tagToChange ++
      (noteTagsPart db since limit).map noteTagToChange ∧
  List.Sorted noteLe (notesPart db since limit) ∧
  List.Sorted tagLe (tagsPart db since limit) ∧
  List.Sorted noteTagLe (noteTagsPart db since limit) ∧
  (∀ r ∈ notesPart db since limit, noteSinceFilter since r = true) ∧
  (∀ r ∈ tagsPart db since limit, tagSinceFilter since r = true) ∧
  (∀ r ∈ noteTagsPart db since limit, noteTagSinceFilter since r = true) ∧
  ((get_changes_since db since limit).1 = [] ∧ (get_changes_since db since limit).2 = none ∨
    ∃ m, (get_changes_since db since limit).2 = some m ∧
      m ∈ (get_changes_since db since limit).1.map SyncChange.timestamp ∧
      ∀ c ∈ (get_changes_since db since limit).1, strLe c.timestamp m)

/-- C1: the claim states that an incoming note update against a locally
changed row with diverging content creates a note-content conflict and
returns `Conflict`.  On this input the local row exists, the peer
watermark is `2025-01-02`, the local row was modified after it
(`2025-01-03`, so `local_changed` holds), the remote change is after it
too (`2025-01-04`) and the two contents differ — yet `apply_note_change`
overwrites the local row with the remote one and returns `Applied`: the
source's conflict branch is an empty `TODO`. -/
theorem apply_note_change_remote_wins_on_divergence :
    apply_note_change "update"
        { created_at := some "2025-01-01T00:00:00Z", content := some "remote v3"
          modified_at := some "2025-01-04T00:00:00Z", deleted_at := none }
        (some { created_at := "2025-01-01T00:00:00Z", content := "local v2"
                modified_at := some "2025-01-03T00:00:00Z", deleted_at := none })
        (some "2025-01-02T00:00:00Z") =
      (ApplyResult.Applied,
        some { created_at := "2025-01-01T00:00:00Z", content := "remote v3"
               modified_at := some "2025-01-04T00:00:00Z", deleted_at := none }) ∧
    strLt "2025-01-02T00:00:00Z" "2025-01-03T00:00:00Z" ∧
    strLt "2025-01-02T00:00:00Z" "2025-01-04T00:00:00Z" ∧
    ("local v2" : String) ≠ "remote v3" := by
  decide

/-- C3 counterexample: the claim asserts that EVERY change whose
incoming time (`created_at` for creates) is at or before the peer
watermark is answered with `Skipped` and leaves the store unchanged.  A
note `create` whose row is absent is applied unconditionally — here
`created_at = 2025-01-01 ≤ watermark = 2025-01-02`, yet the result is
`Applied` and a row is written. -/
theorem apply_note_change_create_ignores_watermark :
    apply_note_change "create"
        { created_at := some "2025-01-01T00:00:00Z", content := some "old note"
          modified_at := none, deleted_at := none }
        none (some "2025-01-02T00:00:00Z") =
      (ApplyResult.Applied,
        some { created_at := "2025-01-01T00:00:00Z", content := "old note"
               modified_at := none, deleted_at := none }) ∧
    strLe "2025-01-01T00:00:00Z" "2025-01-02T00:00:00Z" := by
  decide

/-- C3 (amended): the watermark gate holds exactly where the code
checks it — update/delete note changes against an existing row, update
tag changes against an existing row, and note-tag changes of any
operation.  In each case a change whose incoming time is at or before
`peer_last_sync` yields `Skipped` and the stored row is unchanged.
(Creates, and note/tag updates whose local row is absent, are applied
without a timestamp check; re-delivered creates are skipped by the
existence check instead.) -/
theorem watermark_skip_rule (l i : String) (h : strLe i l) :
    (∀ (op : String) (d : NoteChangeData) (ex : NoteRow),
        op = "update" ∨ op = "delete" → d.modified_at.or d.deleted_at = some i →
        apply_note_change op d (some ex) (some l) = (ApplyResult.Skipped, some ex)) ∧
    (∀ (d : TagChangeData) (ex : TagRow),
        d.modified_at = some i →
        apply_tag_change "update" d (some ex) (some l) = (ApplyResult.Skipped, some ex)) ∧
    (∀ (op : String) (d : NoteTagChangeData) (ex : Option NoteTagRow),
        noteTagIncomingTime op d = some i →
        apply_note_tag_change op d ex (some l) = (ApplyResult.Skipped, ex)) := by
  have hgate : skipGate (some l) (some i) = true := by
    simp [skipGate, h]
  refine ⟨?_, ?_, ?_⟩
  · intro op d ex hop hinc
    rcases hop with rfl | rfl <;>
      simp [apply_note_change, hinc, hgate]
  · intro d ex hinc
    simp [apply_tag_change, hinc, hgate]
  · intro op d ex hinc
    simp [apply_note_tag_change, hinc, hgate]

/-- Witness for `watermark_skip_rule` at concrete timestamps: a
note-tag delete dated before the watermark is skipped and the active
local row survives. -/
theorem watermark_skip_rule_witness :
    strLe "2025-01-01T00:00:00Z" "2025-01-02T00:00:00Z" ∧
    apply_note_tag_change "delete"
        { created_at := some "2024-12-31T00:00:00Z", modified_at := none
          deleted_at := some "2025-01-01T00:00:00Z" }
        (some { created_at := "2024-12-31T00:00:00Z", modified_at := none, deleted_at := none })
        (some "2025-01-02T00:00:00Z") =
      (ApplyResult.Skipped,
        some { created_at := "2024-12-31T00:00:00Z", modified_at := none, deleted_at := none }) :=
  ⟨by decide,
    (watermark_skip_rule "2025-01-02T00:00:00Z" "2025-01-01T00:00:00Z" (by decide)).2.2
      "delete"
      { created_at := some "2024-12-31T00:00:00Z", modified_at := none
        deleted_at := some "2025-01-01T00:00:00Z" }
      (some { created_at := "2024-12-31T00:00:00Z", modified_at := none, deleted_at := none })
      (by decide)⟩

/-- C4: the claim states that a tag update against a locally changed
row with a different name raises a tag-rename conflict, a different
parent a tag-parent conflict, and that a cycle-introducing re-parent is
refused with a tag-parent conflict.  `apply_tag_change` receives no tag
tree and has no conflict branch at all: on both inputs below (a
diverging rename, and the spec's S4 scenario where remote re-parents
`x` under its own child `y`) the local row was modified after the
watermark, yet the remote row is applied verbatim with result
`Applied`. -/
theorem apply_tag_change_never_conflicts :
    (apply_tag_change "update"
        { name := some "remote-name", parent_id := none
          created_at := some "2025-01-01T00:00:00Z", modified_at := some "2025-01-04T00:00:00Z" }
        (some { name := "local-name", parent_id := none
                created_at := "2025-01-01T00:00:00Z", modified_at := some "2025-01-03T00:00:00Z" })
        (some "2025-01-02T00:00:00Z") =
      (ApplyResult.Applied,
        some { name := "remote-name", parent_id := none
               created_at := "2025-01-01T00:00:00Z", modified_at := some "2025-01-04T00:00:00Z" })) ∧
    (apply_tag_change "update"
        { name := some "x", parent_id := some "00000000000000000000000000000002"
          created_at := some "2025-01-01T00:00:00Z", modified_at := some "2025-01-04T00:00:00Z" }
        (some { name := "x", parent_id := none
                created_at := "2025-01-01T00:00:00Z", modified_at := some "2025-01-03T00:00:00Z" })
        (some "2025-01-02T00:00:00Z") =
      (ApplyResult.Applied,
        some { name := "x", parent_id := some "00000000000000000000000000000002"
               created_at := "2025-01-01T00:00:00Z", modified_at := some "2025-01-04T00:00:00Z" })) ∧
    ("local-name" : String) ≠ "remote-name" := by
  decide

/-- C5 counterexample: the claim asserts that an active local row, a
remote delete and `local_changed` always produce `Conflict`.  The
watermark gate runs first: here the remote tombstone is dated before
`peer_last_sync` (delivered late), the local row is active and changed
after the watermark, and the result is `Skipped`, not `Conflict`. -/
theorem note_tag_delete_skip_beats_conflict :
    apply_note_tag_change "delete"
        { created_at := some "2024-12-30T00:00:00Z", modified_at := none
          deleted_at := some "2025-01-01T00:00:00Z" }
        (some { created_at := "2024-12-30T00:00:00Z"
                modified_at := some "2025-01-03T00:00:00Z", deleted_at := none })
        (some "2025-01-02T00:00:00Z") =
      (ApplyResult.Skipped,
        some { created_at := "2024-12-30T00:00:00Z"
               modified_at := some "2025-01-03T00:00:00Z", deleted_at := none }) ∧
    noteTagLocalChanged
        (some { created_at := "2024-12-30T00:00:00Z"
                modified_at := some "2025-01-03T00:00:00Z", deleted_at := none })
        (some "2025-01-02T00:00:00Z") = true ∧
    ApplyResult.Skipped ≠ ApplyResult.Conflict := by
  decide

/-- C5 (amended): for note-tag changes that pass the watermark gate,
the tombstone rules hold as claimed: an active local row hit by a
remote delete is preserved with `Conflict` when `local_changed`, the
delete is applied when not; a deleted local row hit by a remote create,
or by a remote update carrying no tombstone, is reactivated, with
`Conflict` exactly when `local_changed` and `Applied` otherwise. -/
theorem note_tag_tombstone_rules (data : NoteTagChangeData) (ex : NoteTagRow)
    (last : Option String) :
    (skipGate last (noteTagIncomingTime "delete" data) = false →
      ex.deleted_at = none →
      noteTagLocalChanged (some ex) last = true →
      apply_note_tag_change "delete" data (some ex) last = (ApplyResult.Conflict, some ex)) ∧
    (skipGate last (noteTagIncomingTime "delete" data) = false →
      ex.deleted_at = none →
      noteTagLocalChanged (some ex) last = false →
      apply_note_tag_change "delete" data (some ex) last =
        (ApplyResult.Applied,
          some { created_at := ex.created_at, modified_at := data.modified_at
                 deleted_at := data.deleted_at })) ∧
    (skipGate last (noteTagIncomingTime "create" data) = false →
      ex.deleted_at ≠ none →
      apply_note_tag_change "create" data (some ex) last =
        ((if noteTagLocalChanged (some ex) last then ApplyResult.Conflict
          else ApplyResult.Applied),
          some { created_at := ex.created_at, modified_at := data.modified_at
                 deleted_at := none })) ∧
    (skipGate last (noteTagIncomingTime "update" data) = false →
      ex.deleted_at ≠ none → data.deleted_at = none →
      apply_note_tag_change "update" data (some ex) last =
        ((if noteTagLocalChanged (some ex) last then ApplyResult.Conflict
          else ApplyResult.Applied),
          some { created_at := ex.created_at, modified_at := data.modified_at
                 deleted_at := none })) := by
  refine ⟨?_, ?_, ?_, ?_⟩
  · intro hgate hact hlc
    simp [apply_note_tag_change, hgate, hact, hlc]
  · intro hgate hact hlc
    simp [apply_note_tag_change, hgate, hact, hlc]
  · intro hgate hdel
    have hds : ex.deleted_at ≠ none := hdel
    simp [apply_note_tag_change, hgate, hds]
  · intro hgate hdel hrd
    have hls : ex.deleted_at.isSome := Option.ne_none_iff_isSome.mp hdel
    simp [apply_note_tag_change, hgate, hrd, hls]

/-- Witness for `note_tag_tombstone_rules`: a fresh remote tombstone
against an unchanged active row applies the delete. -/
theorem note_tag_tombstone_rules_witness :
    apply_note_tag_change "delete"
        { created_at := some "2024-12-30T00:00:00Z", modified_at := none
          deleted_at := some "2025-01-03T00:00:00Z" }
        (some { created_at := "2024-12-30T00:00:00Z", modified_at := none, deleted_at := none })
        (some "2025-01-02T00:00:00Z") =
      (ApplyResult.Applied,
        some { created_at := "2024-12-30T00:00:00Z", modified_at := none
               deleted_at := some "2025-01-03T00:00:00Z" }) :=
  (note_tag_tombstone_rules
      { created_at := some "2024-12-30T00:00:00Z", modified_at := none
        deleted_at := some "2025-01-03T00:00:00Z" }
      { created_at := "2024-12-30T00:00:00Z", modified_at := none, deleted_at := none }
      (some "2025-01-02T00:00:00Z")).2.1 (by decide) (by decide) (by decide)

/-- A SQL LIMIT with a nonnegative bound returns at most that many
rows. -/
theorem sqlLimit_length_le {α : Type} (n : Int) (h : 0 ≤ n) (l : List α) :
    ((sqlLimit n l).length : Int) ≤ n := by
  unfold sqlLimit
  rw [if_neg (by omega)]
  have h1 : (l.take n.toNat).length ≤ n.toNat := by
    simp [List.length_take]
  have h2 : ((l.take n.toNat).length : Int) ≤ (n.toNat : Int) := by exact_mod_cast h1
  rw [Int.toNat_of_nonneg h] at h2
  exact h2

/-- A SQL LIMIT returns a subset of the rows. -/
theorem sqlLimit_subset {α : Type} (n : Int) (l : List α) : ∀ a ∈ sqlLimit n l, a ∈ l := by
  intro a ha
  unfold sqlLimit at ha
  split at ha
  · exact ha
  · exact List.take_subset _ _ ha

/-- A SQL LIMIT preserves sortedness. -/
theorem sqlLimit_pairwise {α : Type} {r : α → α → Prop} (n : Int) (l : List α)
    (h : List.Pairwise r l) : List.Pairwise r (sqlLimit n l) := by
  unfold sqlLimit
  split
  · exact h
  · exact h.sublist (List.take_sublist _ _)

/-- The notes section is sorted by its COALESCE key. -/
theorem notesPart_sorted (db : Db) (since : Option String) (limit : Int) :
    List.Sorted noteLe (notesPart db since limit) :=
  sqlLimit_pairwise _ _ (List.sorted_insertionSort noteLe _)

/-- Every returned note row passed the `since` filter. -/
theorem notesPart_filter (db : Db) (since : Option String) (limit : Int) :
    ∀ r ∈ notesPart db since limit, noteSinceFilter since r = true := by
  intro r hr
  have h1 : r ∈ List.insertionSort noteLe (db.notes.filter (noteSinceFilter since)) :=
    sqlLimit_subset _ _ r hr
  have h2 : r ∈ db.notes.filter (noteSinceFilter since) :=
    (List.perm_insertionSort noteLe _).mem_iff.mp h1
  exact (List.mem_filter.mp h2).2

/-- The tags section is sorted by its COALESCE key. -/
theorem tagsPart_sorted (db : Db) (since : Option String) (limit : Int) :
    List.Sorted tagLe (tagsPart db since limit) := by
  unfold tagsPart
  split
  · exact sqlLimit_pairwise _ _ (List.sorted_insertionSort tagLe _)
  · exact List.Pairwise.nil

/-- Every returned tag row passed the `since` filter. -/
theorem tagsPart_filter (db : Db) (since : Option String) (limit : Int) :
    ∀ r ∈ tagsPart db since limit, tagSinceFilter since r = true := by
  intro r hr
  unfold tagsPart at hr
  split at hr
  · have h1 : r ∈ List.insertionSort tagLe (db.tags.filter (tagSinceFilter since)) :=
      sqlLimit_subset _ _ r hr
    have h2 : r ∈ db.tags.filter (tagSinceFilter since) :=
      (List.perm_insertionSort tagLe _).mem_iff.mp h1
    exact (List.mem_filter.mp h2).2
  · simp at hr

/-- The note-tags section is sorted by its COALESCE key. -/
theorem noteTagsPart_sorted (db : Db) (since : Option String) (limit : Int) :
    List.Sorted noteTagLe (noteTagsPart db since limit) := by
  unfold noteTagsPart
  split
  · exact sqlLimit_pairwise _ _ (List.sorted_insertionSort noteTagLe _)
  · exact List.Pairwise.nil

/-- Every returned note-tag row passed the `since` filter. -/
theorem noteTagsPart_filter (db : Db) (since : Option String) (limit : Int) :
    ∀ r ∈ noteTagsPart db since limit, noteTagSinceFilter since r = true := by
  intro r hr
  unfold noteTagsPart at hr
  split at hr
  · have h1 : r ∈ List.insertionSort noteTagLe (db.note_tags.filter (noteTagSinceFilter since)) :=
      sqlLimit_subset _ _ r hr
    have h2 : r ∈ db.note_tags.filter (noteTagSinceFilter since) :=
      (List.perm_insertionSort noteTagLe _).mem_iff.mp h1
    exact (List.mem_filter.mp h2).2
  · simp at hr

/-- The tags section either is empty or fits in the limit together with
the notes section. -/
theorem tagsPart_length (db : Db) (since : Option String) (limit : Int) :
    (tagsPart db since limit).length = 0 ∨
      (((notesPart db since limit).length : Int) + (tagsPart db since limit).length ≤ limit) := by
  unfold tagsPart
  split
  · next hr =>
    right
    have hb := sqlLimit_length_le (limit - (notesPart db since limit).length) (by omega)
      (List.insertionSort tagLe (db.tags.filter (tagSinceFilter since)))
    omega
  · left
    simp

/-- The note-tags section either is empty or fits in the limit together
with the earlier sections. -/
theorem noteTagsPart_length (db : Db) (since : Option String) (limit : Int) :
    (noteTagsPart db since limit).length = 0 ∨
      (((notesPart db since limit).length : Int) + (tagsPart db since limit).length
        + (noteTagsPart db since limit).length ≤ limit) := by
  unfold noteTagsPart
  split
  · next hr =>
    right
    have hb := sqlLimit_length_le
      (limit - ((notesPart db since limit).length + (tagsPart db since limit).length)) (by omega)
      (List.insertionSort noteTagLe (db.note_tags.filter (noteTagSinceFilter since)))
    omega
  · left
    simp

/-- The changes feed returns at most `limit` records for any
nonnegative limit. -/
theorem get_changes_since_len_le (db : Db) (since : Option String) (limit : Int)
    (h : 0 ≤ limit) :
    ((get_changes_since db since limit).1.length : Int) ≤ limit := by
  have h1 : ((notesPart db since limit).length : Int) ≤ limit := by
    unfold notesPart
    exact sqlLimit_length_le _ h _
  have h2 := tagsPart_length db since limit
  have h3 := noteTagsPart_length db since limit
  simp only [get_changes_since, List.length_append, List.length_map]
  rcases h2 with h2 | h2 <;> rcases h3 with h3 | h3 <;> push_cast <;> omega

/-- Folding `updLatest` from a seed yields the maximum of the seed and
the list. -/
theorem foldl_updLatest_spec (l : List String) (s : String) :
    ∃ m, List.foldl updLatest (some s) l = some m ∧ (m = s ∨ m ∈ l) ∧ strLe s m ∧
      ∀ t ∈ l, strLe t m := by
  induction l generalizing s with
  | nil => exact ⟨s, rfl, .inl rfl, le_refl s.data, by simp⟩
  | cons a l ih =>
    by_cases hsa : strLt s a
    · obtain ⟨m, hm, hmem, ham, hub⟩ := ih a
      refine ⟨m, ?_, ?_, ?_, ?_⟩
      · simpa [updLatest, hsa] using hm
      · rcases hmem with rfl | hm2
        · exact .inr (List.mem_cons_self _ _)
        · exact .inr (List.mem_cons_of_mem _ hm2)
      · exact le_trans (le_of_lt hsa) ham
      · intro t ht
        rcases List.mem_cons.mp ht with rfl | ht2
        · exact ham
        · exact hub t ht2
    · obtain ⟨m, hm, hmem, hsm, hub⟩ := ih s
      refine ⟨m, ?_, ?_, ?_, ?_⟩
      · simpa [updLatest, hsa] using hm
      · rcases hmem with rfl | hm2
        · exact .inl rfl
        · exact .inr (List.mem_cons_of_mem _ hm2)
      · exact hsm
      · intro t ht
        rcases List.mem_cons.mp ht with rfl | ht2
        · exact le_trans (not_lt.mp hsa) hsm
        · exact hub t ht2

/-- Function `latestOf` is `none` exactly on the empty list, and otherwise the
maximum of the list. -/
theorem latestOf_spec (l : List String) :
    (l = [] ∧ latestOf l = none) ∨
      ∃ m, latestOf l = some m ∧ m ∈ l ∧ ∀ t ∈ l, strLe t m := by
  cases l with
  | nil => exact .inl ⟨rfl, rfl⟩
  | cons a l =>
    right
    obtain ⟨m, hm, hmem, ham, hub⟩ := foldl_updLatest_spec l a
    refine ⟨m, ?_, ?_, ?_⟩
    · exact hm
    · rcases hmem with rfl | hm2
      · exact List.mem_cons_self _ _
      · exact List.mem_cons_of_mem _ hm2
    · intro t ht
      rcases List.mem_cons.mp ht with rfl | ht2
      · exact ham
      · exact hub t ht2

/-- C2 counterexample: the claim asserts that the whole returned list is
ascending in effective timestamp and that every effective timestamp
exceeds `since`.  This store holds a note whose `modified_at` is null
and whose `deleted_at` (its effective timestamp, `2025-01-01`) precedes
`since = 2025-01-02` — the SQL filter and sort key ignore `deleted_at`
for notes — plus a later note and a tag: the feed returns timestamps
`[2025-01-01, 2025-01-06, 2025-01-03]`, neither all-after-`since` nor
ascending (tags follow notes regardless of their timestamps). -/
theorem get_changes_since_not_globally_sorted :
    ((get_changes_since
        ⟨[{ id := "6f000000000000000000000000000001", created_at := "2025-01-05T00:00:00Z"
            content := "a", modified_at := none, deleted_at := some "2025-01-01T00:00:00Z" },
          { id := "6f000000000000000000000000000002", created_at := "2025-01-06T00:00:00Z"
            content := "b", modified_at := some "2025-01-06T00:00:00Z", deleted_at := none }],
         [{ id := "7a000000000000000000000000000001", name := "work", parent_id := none
            created_at := "2025-01-03T00:00:00Z", modified_at := none }],
         []⟩
        (some "2025-01-02T00:00:00Z") 10).1.map SyncChange.timestamp =
      ["2025-01-01T00:00:00Z", "2025-01-06T00:00:00Z", "2025-01-03T00:00:00Z"]) ∧
    ¬ strLt "2025-01-02T00:00:00Z" "2025-01-01T00:00:00Z" ∧
    ¬ strLe "2025-01-06T00:00:00Z" "2025-01-03T00:00:00Z" := by
  decide

/-- C2 (amended): for every store, `since` and positive limit, the
changes feed returns at most `limit` records, grouped as notes then
tags then note-tags, each group sorted ascending by its own COALESCE
key with every row passing its own `since` filter, and the reported
latest timestamp is the maximum timestamp among the returned records
(absent exactly when no record is returned). -/
theorem changes_feed_guarantees (db : Db) (since : Option String) (limit : Int)
    (h : 0 < limit) : changesFeedSpec db since limit := by
  refine ⟨get_changes_since_len_le db since limit (le_of_lt h), rfl,
    notesPart_sorted db since limit, tagsPart_sorted db since limit,
    noteTagsPart_sorted db since limit, notesPart_filter db since limit,
    tagsPart_filter db since limit, noteTagsPart_filter db since limit, ?_⟩
  rcases latestOf_spec ((get_changes_since db since limit).1.map SyncChange.timestamp) with
    ⟨hnil, hnone⟩ | ⟨m, hm, hmem, hub⟩
  · left
    exact ⟨List.map_eq_nil_iff.mp hnil, hnone⟩
  · right
    exact ⟨m, hm, hmem, fun c hc => hub _ (List.mem_map_of_mem _ hc)⟩

/-- Witness for `changes_feed_guarantees` on a one-note store with
limit 5. -/
theorem changes_feed_guarantees_witness :
    (0 : Int) < 5 ∧
    changesFeedSpec
      ⟨[{ id := "6f000000000000000000000000000001", created_at := "2025-01-05T00:00:00Z"
          content := "a", modified_at := none, deleted_at := none }], [], []⟩
      (some "2025-01-02T00:00:00Z") 5 :=
  ⟨by decide,
    changes_feed_guarantees
      ⟨[{ id := "6f000000000000000000000000000001", created_at := "2025-01-05T00:00:00Z"
          content := "a", modified_at := none, deleted_at := none }], [], []⟩
      (some "2025-01-02T00:00:00Z") 5 (by decide)⟩

/-- C7 counterexample: the claim asserts that `is_complete = false` holds exactly
when the returned count equals the effective limit.  A client-supplied
limit of `-1` gives effective limit `min(-1, 10000) = -1`; on an empty
store the handler returns 0 changes with `is_complete = (0 < -1) =
false`, although `0 ≠ -1`. -/
theorem changes_endpoint_negative_limit :
    (get_changes ⟨[], [], []⟩ none (some (-1))).2 = false ∧
    ((get_changes ⟨[], [], []⟩ none (some (-1))).1.length : Int) ≠ effectiveLimit (some (-1)) ∧
    effectiveLimit (some (-1)) = -1 := by
  decide

/-- C7 (amended): for every request whose client limit (defaulting to
1000) is nonnegative, the handler uses effective limit
`min(client_limit ?? 1000, 10000)` and responds with
`is_complete = false` exactly when the number of returned changes
equals that effective limit. -/
theorem changes_endpoint_is_complete (db : Db) (since : Option String) (cl : Option Int)
    (h : 0 ≤ cl.getD 1000) :
    effectiveLimit cl = min (cl.getD 1000) 10000 ∧
    ((get_changes db since cl).2 = false ↔
      ((get_changes db since cl).1.length : Int) = effectiveLimit cl) := by
  have hl : 0 ≤ effectiveLimit cl := le_min h (by norm_num)
  have hb := get_changes_since_len_le db since (effectiveLimit cl) hl
  refine ⟨rfl, ?_⟩
  show decide (((get_changes_since db since (effectiveLimit cl)).1.length : Int) <
      effectiveLimit cl) = false ↔
    ((get_changes_since db since (effectiveLimit cl)).1.length : Int) = effectiveLimit cl
  rw [decide_eq_false_iff_not]
  omega

/-- Witness for `changes_endpoint_is_complete` with client limit 3 on
an empty store. -/
theorem changes_endpoint_is_complete_witness :
    (0 : Int) ≤ (some (3 : Int)).getD 1000 ∧
    (effectiveLimit (some 3) = min ((some (3 : Int)).getD 1000) 10000 ∧
      ((get_changes ⟨[], [], []⟩ none (some 3)).2 = false ↔
        ((get_changes ⟨[], [], []⟩ none (some 3)).1.length : Int) = effectiveLimit (some 3))) :=
  ⟨by decide, changes_endpoint_is_complete ⟨[], [], []⟩ none (some 3) (by decide)⟩

/-- C6 counterexample: the claim asserts that only an exact match of
the stored fingerprint is trusted.  The code lowercases both sides
before comparing: a stored pin with uppercase hex is trusted against
the (always lowercase-hex) computed fingerprint although the two
strings differ. -/
theorem tofu_case_insensitive_pin_match :
    (verify_peer
        [{ peer_id := "0123456789abcdef0123456789abcdef", peer_name := "peer"
           peer_url := "https://peer.example:8384"
           certificate_fingerprint := some "SHA256:AB:CD:EF" }]
        "0123456789abcdef0123456789abcdef" (.ok "SHA256:ab:cd:ef")).1.1 = true ∧
    ("SHA256:ab:cd:ef" : String) ≠ "SHA256:AB:CD:EF" := by
  decide

/-- C6 (amended): for a peer with a stored fingerprint, a presented
certificate whose computed fingerprint differs from the pin even after
lowercasing both is rejected with an error message, a
case-insensitive match is trusted, and in every case the stored peer
configuration — including the pin — is left unchanged. -/
theorem tofu_pin_rules (peers : List PeerConfig) (pid : String) (p : PeerConfig)
    (stored actual : String)
    (hp : get_peer peers pid = some p)
    (hs : p.certificate_fingerprint = some stored) :
    (actual.data.map Char.toLower ≠ stored.data.map Char.toLower →
      (verify_peer peers pid (.ok actual)).1.1 = false ∧
      ((verify_peer peers pid (.ok actual)).1.2.2).isSome = true) ∧
    (actual.data.map Char.toLower = stored.data.map Char.toLower →
      (verify_peer peers pid (.ok actual)).1.1 = true) ∧
    (verify_peer peers pid (.ok actual)).2 = peers := by
  refine ⟨fun hne => ?_, fun heq => ?_, ?_⟩
  · constructor <;> simp [verify_peer, hp, hs, hne]
  · simp [verify_peer, hp, hs, heq]
  · by_cases hc : actual.data.map Char.toLower = stored.data.map Char.toLower <;>
      simp [verify_peer, hp, hs, hc]

/-- Witness for `tofu_pin_rules`: a certificate whose fingerprint
differs from the pin beyond case is rejected with an error and the pin
survives. -/
theorem tofu_pin_rules_witness :
    (verify_peer
        [{ peer_id := "0123456789abcdef0123456789abcdef", peer_name := "peer"
           peer_url := "https://peer.example:8384"
           certificate_fingerprint := some "SHA256:AB:CD:EF" }]
        "0123456789abcdef0123456789abcdef" (.ok "SHA256:99:88:77")).1.1 = false ∧
    ((verify_peer
        [{ peer_id := "0123456789abcdef0123456789abcdef", peer_name := "peer"
           peer_url := "https://peer.example:8384"
           certificate_fingerprint := some "SHA256:AB:CD:EF" }]
        "0123456789abcdef0123456789abcdef" (.ok "SHA256:99:88:77")).1.2.2).isSome = true ∧
    (verify_peer
        [{ peer_id := "0123456789abcdef0123456789abcdef", peer_name := "peer"
           peer_url := "https://peer.example:8384"
           certificate_fingerprint := some "SHA256:AB:CD:EF" }]
        "0123456789abcdef0123456789abcdef" (.ok "SHA256:99:88:77")).2 =
      [{ peer_id := "0123456789abcdef0123456789abcdef", peer_name := "peer"
         peer_url := "https://peer.example:8384"
         certificate_fingerprint := some "SHA256:AB:CD:EF" }] := by
  have h := tofu_pin_rules
    [{ peer_id := "0123456789abcdef0123456789abcdef", peer_name := "peer"
       peer_url := "https://peer.example:8384"
       certificate_fingerprint := some "SHA256:AB:CD:EF" }]
    "0123456789abcdef0123456789abcdef"
    { peer_id := "0123456789abcdef0123456789abcdef", peer_name := "peer"
      peer_url := "https://peer.example:8384"
      certificate_fingerprint := some "SHA256:AB:CD:EF" }
    "SHA256:AB:CD:EF" "SHA256:99:88:77" (by decide) rfl
  exact ⟨(h.1 (by decide)).1, (h.1 (by decide)).2, h.2.2⟩

/-- C8: the claim (like the validator's own doc comment) bounds the tag
name at 100 characters; the code checks `stripped.len()`, a UTF-8 byte
count.  Fifty-one copies of the two-byte character 'é' form a
51-character name satisfying every acceptance condition of the claim —
trimmed non-empty, at most 100 characters, no slash — yet the validator
rejects it, reporting 102 "characters". -/
theorem validate_tag_name_counts_bytes :
    validate_tag_name (List.replicate 51 'é') =
      .error ⟨"tag_name", "cannot exceed 100 characters (got 102)"⟩ ∧
    (rustTrim (List.replicate 51 'é')).length = 51 ∧
    51 ≤ MAX_TAG_NAME_LENGTH ∧
    rustTrim (List.replicate 51 'é') ≠ [] ∧
    '/' ∉ rustTrim (List.replicate 51 'é') := by
  decide

/-- Updating the first peer with a matching id rewrites its name and
url, and its fingerprint only when one is supplied. -/
theorem updateFirstPeer_find (pid name url : String) (ofp : Option String) :
    ∀ (peers : List PeerConfig) (p : PeerConfig),
      peers.find? (fun q => q.peer_id == pid) = some p →
      (updateFirstPeer peers pid name url ofp).find? (fun q => q.peer_id == pid) =
        some { p with
               peer_name := name
               peer_url := url
               certificate_fingerprint :=
                 match ofp with
                 | some fp => some fp
                 | none => p.certificate_fingerprint } := by
  intro peers
  induction peers with
  | nil => intro p hp; simp at hp
  | cons q rest ih =>
    intro p hp
    cases hqp : (q.peer_id == pid) with
    | true =>
      have hq : q.peer_id = pid := by simpa using hqp
      have hstep : List.find? (fun r : PeerConfig => r.peer_id == pid) (q :: rest) = some q := by
        simp only [List.find?, hqp]
      rw [hstep] at hp
      have hpq : p = q := (Option.some.inj hp).symm
      unfold updateFirstPeer
      rw [if_pos hq]
      have hq2 : (({ q with
          peer_name := name
          peer_url := url
          certificate_fingerprint :=
            match ofp with
            | some fp => some fp
            | none => q.certificate_fingerprint } : PeerConfig).peer_id == pid) = true := by
        simpa using hqp
      simp only [List.find?, hq2]
      rw [hpq]
    | false =>
      have hstep : List.find? (fun r : PeerConfig => r.peer_id == pid) (q :: rest) =
          List.find? (fun r : PeerConfig => r.peer_id == pid) rest := by
        simp only [List.find?, hqp]
      rw [hstep] at hp
      have hq : ¬ q.peer_id = pid := by simpa using hqp
      unfold updateFirstPeer
      rw [if_neg hq]
      have hq2 : (q.peer_id == pid) = false := hqp
      have hstep2 : List.find? (fun r : PeerConfig => r.peer_id == pid)
          (q :: updateFirstPeer rest pid name url ofp) =
          List.find? (fun r : PeerConfig => r.peer_id == pid)
            (updateFirstPeer rest pid name url ofp) := by
        simp only [List.find?, hq2]
      rw [hstep2]
      exact ih p hp

/-- C9: calling `add_peer` on an existing peer with `allow_update` and
no fingerprint replaces the peer's name and url but leaves the stored
certificate fingerprint untouched; the pin is overwritten exactly when
a fingerprint argument is supplied. -/
theorem add_peer_preserves_pin (peers : List PeerConfig) (pid name url : String)
    (p : PeerConfig)
    (hvalid : validPeerId pid = true)
    (hfind : peers.find? (fun q => q.peer_id == pid) = some p) :
    add_peer peers pid name url none true =
      .ok (updateFirstPeer peers pid name url none) ∧
    (updateFirstPeer peers pid name url none).find? (fun q => q.peer_id == pid) =
      some { p with peer_name := name, peer_url := url } ∧
    (∀ fp, (updateFirstPeer peers pid name url (some fp)).find? (fun q => q.peer_id == pid) =
      some { p with
             peer_name := name
             peer_url := url
             certificate_fingerprint := some fp }) := by
  refine ⟨?_, ?_, ?_⟩
  · simp [add_peer, hvalid, hfind]
  · simpa using updateFirstPeer_find pid name url none peers p hfind
  · intro fp
    simpa using updateFirstPeer_find pid name url (some fp) peers p hfind

/-- Witness for `add_peer_preserves_pin` on a one-peer configuration:
the pin survives an update without a fingerprint and is replaced when
one is given. -/
theorem add_peer_preserves_pin_witness :
    add_peer
        [{ peer_id := "00000000000000000000000000000000", peer_name := "Old"
           peer_url := "https://old.example:8384"
           certificate_fingerprint := some "SHA256:AA:BB" }]
        "00000000000000000000000000000000" "New" "https://new.example:8384" none true =
      .ok (updateFirstPeer
        [{ peer_id := "00000000000000000000000000000000", peer_name := "Old"
           peer_url := "https://old.example:8384"
           certificate_fingerprint := some "SHA256:AA:BB" }]
        "00000000000000000000000000000000" "New" "https://new.example:8384" none) ∧
    (updateFirstPeer
        [{ peer_id := "00000000000000000000000000000000", peer_name := "Old"
           peer_url := "https://old.example:8384"
           certificate_fingerprint := some "SHA256:AA:BB" }]
        "00000000000000000000000000000000" "New" "https://new.example:8384" none).find?
        (fun q => q.peer_id == "00000000000000000000000000000000") =
      some { peer_id := "00000000000000000000000000000000", peer_name := "New"
             peer_url := "https://new.example:8384"
             certificate_fingerprint := some "SHA256:AA:BB" } ∧
    (updateFirstPeer
        [{ peer_id := "00000000000000000000000000000000", peer_name := "Old"
           peer_url := "https://old.example:8384"
           certificate_fingerprint := some "SHA256:AA:BB" }]
        "00000000000000000000000000000000" "New" "https://new.example:8384"
        (some "SHA256:CC:DD")).find?
        (fun q => q.peer_id == "00000000000000000000000000000000") =
      some { peer_id := "00000000000000000000000000000000", peer_name := "New"
             peer_url := "https://new.example:8384"
             certificate_fingerprint := some "SHA256:CC:DD" } := by
  have h := add_peer_preserves_pin
    [{ peer_id := "00000000000000000000000000000000", peer_name := "Old"
       peer_url := "https://old.example:8384"
       certificate_fingerprint := some "SHA256:AA:BB" }]
    "00000000000000000000000000000000" "New" "https://new.example:8384"
    { peer_id := "00000000000000000000000000000000", peer_name := "Old"
      peer_url := "https://old.example:8384"
      certificate_fingerprint := some "SHA256:AA:BB" }
    (by decide) (by decide)
  exact ⟨h.1, h.2.1, h.2.2 "SHA256:CC:DD"⟩

/-- Hex digits below 16 round-trip through `Nat.digitChar` and
`hexVal`. -/
theorem hexVal_digitChar (n : Nat) (h : n < 16) : hexVal (Nat.digitChar n) = some n := by
  interval_cases n <;> decide

/-- Hex digits are never the hyphen character. -/
theorem digitChar_ne_hyphen (n : Nat) (h : n < 16) : Nat.digitChar n ≠ '-' := by
  interval_cases n <;> decide

/-- Unfolding `uuid_to_hex` on a cons cell. -/
theorem uuid_to_hex_cons (b : Nat) (bs : List Nat) :
    uuid_to_hex (b :: bs) =
      Nat.digitChar (b / 16) :: Nat.digitChar (b % 16) :: uuid_to_hex bs := rfl

/-- The hex rendering has two characters per byte. -/
theorem uuid_to_hex_length (bs : List Nat) : (uuid_to_hex bs).length = 2 * bs.length := by
  induction bs with
  | nil => rfl
  | cons b bs ih =>
    rw [uuid_to_hex_cons]
    simp [ih]
    omega

/-- Parsing inverts the hex rendering on genuine bytes. -/
theorem parseHexBytes_uuid_to_hex (bs : List Nat) (hb : ∀ b ∈ bs, b < 256) :
    parseHexBytes (uuid_to_hex bs) = some bs := by
  induction bs with
  | nil => rfl
  | cons b bs ih =>
    have hblt : b < 256 := hb b (List.mem_cons_self _ _)
    have h1 : b / 16 < 16 := by omega
    have h2 : b % 16 < 16 := by omega
    rw [uuid_to_hex_cons]
    simp [parseHexBytes, hexVal_digitChar _ h1, hexVal_digitChar _ h2,
      ih (fun x hx => hb x (List.mem_cons_of_mem _ hx))]
    omega

/-- The hex rendering contains no hyphen. -/
theorem uuid_to_hex_no_hyphen (bs : List Nat) (hb : ∀ b ∈ bs, b < 256) :
    ∀ c ∈ uuid_to_hex bs, c ≠ '-' := by
  intro c hc
  obtain ⟨b, hbmem, hcmem⟩ := List.mem_flatMap.mp hc
  have hblt := hb b hbmem
  have h1 : b / 16 < 16 := by omega
  have h2 : b % 16 < 16 := by omega
  simp only [List.mem_cons, List.not_mem_nil, or_false] at hcmem
  rcases hcmem with rfl | rfl
  · exact digitChar_ne_hyphen _ h1
  · exact digitChar_ne_hyphen _ h2

/-- Stripping hyphens from a hyphen-free string is the identity. -/
theorem removeHyphens_noop (l : List Char) (h : ∀ c ∈ l, c ≠ '-') :
    removeHyphens l = l := by
  unfold removeHyphens
  apply List.filter_eq_self.mpr
  intro a ha
  exact decide_eq_true (h a ha)

/-- Function `removeHyphens` distributes over append. -/
theorem removeHyphens_append (a b : List Char) :
    removeHyphens (a ++ b) = removeHyphens a ++ removeHyphens b := by
  simp [removeHyphens, List.filter_append]

/-- Function `removeHyphens` deletes a lone hyphen. -/
theorem removeHyphens_hyphen : removeHyphens ['-'] = [] := rfl

/-- Reassembling the 8-4-4-4-12 split of a list returns the list. -/
theorem take_drop_glue (l : List Char) :
    l.take 8 ++ ((l.drop 8).take 4 ++ ((l.drop 12).take 4 ++
      ((l.drop 16).take 4 ++ l.drop 20))) = l := by
  have h12 : (l.drop 8).drop 4 = l.drop 12 := by simp [List.drop_drop]
  have h16 : (l.drop 12).drop 4 = l.drop 16 := by simp [List.drop_drop]
  have h20 : (l.drop 16).drop 4 = l.drop 20 := by simp [List.drop_drop]
  calc l.take 8 ++ ((l.drop 8).take 4 ++ ((l.drop 12).take 4 ++
          ((l.drop 16).take 4 ++ l.drop 20)))
      = l.take 8 ++ ((l.drop 8).take 4 ++ ((l.drop 12).take 4 ++
          ((l.drop 16).take 4 ++ (l.drop 16).drop 4))) := by rw [h20]
    _ = l.take 8 ++ ((l.drop 8).take 4 ++ ((l.drop 12).take 4 ++ l.drop 16)) := by
          rw [List.take_append_drop]
    _ = l.take 8 ++ ((l.drop 8).take 4 ++ ((l.drop 12).take 4 ++ (l.drop 12).drop 4)) := by
          rw [h16]
    _ = l.take 8 ++ ((l.drop 8).take 4 ++ l.drop 12) := by rw [List.take_append_drop]
    _ = l.take 8 ++ ((l.drop 8).take 4 ++ (l.drop 8).drop 4) := by rw [h12]
    _ = l.take 8 ++ l.drop 8 := by rw [List.take_append_drop]
    _ = l := List.take_append_drop 8 l

/-- Stripping the four hyphens of the hyphenated form recovers the
simple form. -/
theorem removeHyphens_hyphenated (bs : List Nat) (hb : ∀ b ∈ bs, b < 256) :
    removeHyphens (uuidHyphenated bs) = uuid_to_hex bs := by
  have hnh := uuid_to_hex_no_hyphen bs hb
  have t8 := removeHyphens_noop ((uuid_to_hex bs).take 8)
    (fun c hc => hnh c (List.take_subset _ _ hc))
  have d8 := removeHyphens_noop (((uuid_to_hex bs).drop 8).take 4)
    (fun c hc => hnh c (List.drop_subset _ _ (List.take_subset _ _ hc)))
  have d12 := removeHyphens_noop (((uuid_to_hex bs).drop 12).take 4)
    (fun c hc => hnh c (List.drop_subset _ _ (List.take_subset _ _ hc)))
  have d16 := removeHyphens_noop (((uuid_to_hex bs).drop 16).take 4)
    (fun c hc => hnh c (List.drop_subset _ _ (List.take_subset _ _ hc)))
  have d20 := removeHyphens_noop ((uuid_to_hex bs).drop 20)
    (fun c hc => hnh c (List.drop_subset _ _ hc))
  simp only [uuidHyphenated, removeHyphens_append, removeHyphens_hyphen]
  rw [t8, d8, d12, d16, d20]
  simp only [List.nil_append, List.append_nil, List.append_assoc]
  exact take_drop_glue _

/-- C10: the validator `validate_uuid_hex` accepts both the 32-hex simple form and
the hyphenated form of a UUID and returns the UUID in both cases; in
particular the `uuid_to_hex` round-trip is the identity, for every
field name. -/
theorem validate_uuid_hex_roundtrip (bs : List Nat) (f : String)
    (hlen : bs.length = 16) (hb : ∀ b ∈ bs, b < 256) :
    validate_uuid_hex (uuid_to_hex bs) f = .ok bs ∧
    validate_uuid_hex (uuidHyphenated bs) f = .ok bs := by
  have hlen32 : (uuid_to_hex bs).length = 32 := by rw [uuid_to_hex_length, hlen]
  have hparse : parseHexBytes (uuid_to_hex bs) = some bs := parseHexBytes_uuid_to_hex bs hb
  have hclean : removeHyphens (uuid_to_hex bs) = uuid_to_hex bs :=
    removeHyphens_noop _ (uuid_to_hex_no_hyphen bs hb)
  have hclean2 : removeHyphens (uuidHyphenated bs) = uuid_to_hex bs :=
    removeHyphens_hyphenated bs hb
  constructor
  · unfold validate_uuid_hex
    rw [hclean]
    unfold uuidParse
    rw [if_pos hlen32, hparse]
  · unfold validate_uuid_hex
    rw [hclean2]
    unfold uuidParse
    rw [if_pos hlen32, hparse]

/-- Witness for `validate_uuid_hex_roundtrip` on a concrete UUIDv7-like
byte string. -/
theorem validate_uuid_hex_roundtrip_witness :
    ([0x01, 0x92, 0x33, 0x44, 0x55, 0x66, 0x77, 0x88,
      0x99, 0xaa, 0xbb, 0xcc, 0xdd, 0xee, 0xff, 0x10] : List Nat).length = 16 ∧
    (∀ b ∈ ([0x01, 0x92, 0x33, 0x44, 0x55, 0x66, 0x77, 0x88,
      0x99, 0xaa, 0xbb, 0xcc, 0xdd, 0xee, 0xff, 0x10] : List Nat), b < 256) ∧
    validate_uuid_hex
      (uuid_to_hex [0x01, 0x92, 0x33, 0x44, 0x55, 0x66, 0x77, 0x88,
        0x99, 0xaa, 0xbb, 0xcc, 0xdd, 0xee, 0xff, 0x10]) "note_id" =
      .ok [0x01, 0x92, 0x33, 0x44, 0x55, 0x66, 0x77, 0x88,
        0x99, 0xaa, 0xbb, 0xcc, 0xdd, 0xee, 0xff, 0x10] ∧
    validate_uuid_hex
      (uuidHyphenated [0x01, 0x92, 0x33, 0x44, 0x55, 0x66, 0x77, 0x88,
        0x99, 0xaa, 0xbb, 0xcc, 0xdd, 0xee, 0xff, 0x10]) "note_id" =
      .ok [0x01, 0x92, 0x33, 0x44, 0x55, 0x66, 0x77, 0x88,
        0x99, 0xaa, 0xbb, 0xcc, 0xdd, 0xee, 0xff, 0x10] := by
  refine ⟨by decide, by decide, ?_, ?_⟩
  · exact (validate_uuid_hex_roundtrip
      [0x01, 0x92, 0x33, 0x44, 0x55, 0x66, 0x77, 0x88,
       0x99, 0xaa, 0xbb, 0xcc, 0xdd, 0xee, 0xff, 0x10] "note_id"
      (by decide) (by decide)).1
  · exact (validate_uuid_hex_roundtrip
      [0x01, 0x92, 0x33, 0x44, 0x55, 0x66, 0x77, 0x88,
       0x99, 0xaa, 0xbb, 0xcc, 0xdd, 0xee, 0xff, 0x10] "note_id"
      (by decide) (by decide)).2
